import Mathlib

/-!
# Verification of the Azure DevOps metrics aggregation core

Shallow embedding of `src/static/main.js` (class `AzureDevOpsMetricsAnalyzer`).

Modelling conventions:
* JavaScript numbers that hold counts are `Nat`; distribution samples and
  percentile results are `Int` (mock generators produce `Int` floors of
  rational draws); `Math.random()` is modelled by an explicit draw supply
  `ℕ → ℚ`, consumed at increasing indices in call order.
* `fetch` outcomes are modelled by `FetchOutcome`: the promise may reject
  (`networkError`), or resolve to a response with an `ok` flag, a status
  text, and a body whose JSON parse may itself fail (`Except Unit α`).
* Thrown JavaScript exceptions are modelled with `Except JsError`;
  `try`/`catch` blocks that observe partially mutated local state are
  modelled by carrying the partial state inside the `error` constructor.
* JavaScript objects used as string-keyed maps are association lists in
  insertion order; assignment is `setKey` (update in place, append if new).
-/

/-- JavaScript `Math.round`: round half toward positive infinity,
i.e. `⌊x + 1/2⌋`. -/
def jsRound (q : ℚ) : ℤ := ⌊q + 1/2⌋

/-- Rounding to the nearest integer with ties away from zero, the
convention the specification names for the percentile computation. -/
def roundHalfAwayFromZero (q : ℚ) : ℤ :=
  if 0 ≤ q then ⌊q + 1/2⌋ else ⌈q - 1/2⌉

/-- JavaScript object assignment `o[k] = v` on an insertion-ordered
association list: overwrite in place if the key exists, append otherwise. -/
def setKey {α : Type} (l : List (String × α)) (k : String) (v : α) :
    List (String × α) :=
  if l.any (fun p => p.1 == k) then
    l.map (fun p => if p.1 == k then (k, v) else p)
  else
    l ++ [(k, v)]

/-- JavaScript `String.prototype.toLowerCase`, modelled as char-wise
lowercasing. -/
def jsToLower (s : String) : String := ⟨s.data.map Char.toLower⟩

/-- Truthiness of the optional user-email argument: JavaScript
`if (!userEmail)` treats both `null` and the empty string as absent. -/
def truthyEmail : Option String → Bool
  | none => false
  | some e => e ≠ ""

/-! ## Remote data model (shapes read off the API responses) -/

structure Project where
  id : String
  name : String
deriving DecidableEq, Repr

structure Repo where
  id : String
  name : String
deriving DecidableEq, Repr

structure Author where
  email : Option String
deriving DecidableEq, Repr

structure Commit where
  author : Option Author
deriving DecidableEq, Repr

structure Creator where
  uniqueName : Option String
deriving DecidableEq, Repr

structure PullReq where
  createdBy : Option Creator
deriving DecidableEq, Repr

structure WorkItem where
  wid : Nat
deriving DecidableEq, Repr

deriving instance DecidableEq for Except

/-- Outcome of one `fetch` call whose parsed JSON body has type `α`:
the promise may reject (network error), or resolve to a response carrying
the `ok` flag, the `statusText`, and a body whose `json()` parse may fail. -/
inductive FetchOutcome (α : Type) where
  | networkError
  | response (ok : Bool) (statusText : String) (body : Except Unit α)
deriving DecidableEq

/-- JavaScript exceptions that can propagate out of the fetch helpers. -/
inductive JsError where
  | network
  | malformedBody
  | thrown (msg : String)
deriving DecidableEq, Repr

/-- The remote world for one run: the response to every request the client
can issue.  Each field is keyed by exactly the parameters that appear in
the request URL or body in the source (note: the pull-request URL carries
no date parameter, the commit URL carries `searchCriteria.fromDate`
derived from `daysBack`, and the work-item query body carries the assignee
email and the window). -/
structure Env where
  projectsResp : FetchOutcome (Option (List Project))
  reposResp : String → FetchOutcome (Option (List Repo))
  commitsResp : String → String → Nat → FetchOutcome (Option (List Commit))
  prsResp : String → String → FetchOutcome (Option (List PullReq))
  workItemsResp : String → String → Nat → FetchOutcome (Option (List WorkItem))

/-- Shared shape of the four tolerant sub-fetches
(`getRepositories` / `getCommits` / `getPullRequests` / `getWorkItems`):
`if (!response.ok) return []` comes before `response.json()`, so a non-2xx
status yields `[]`, while a rejected fetch or a malformed body throws. -/
def fetchValue {α : Type} (r : FetchOutcome (Option (List α))) :
    Except JsError (List α) :=
  match r with
  | .networkError => .error .network
  | .response ok _ body =>
    if ok then
      match body with
      | .error _ => .error .malformedBody
      | .ok v => .ok (v.getD [])
    else
      .ok []

/-- `getProjects`: the one fetch that throws on a non-2xx status
(`Failed to fetch projects: ${response.statusText}`). -/
def getProjects (env : Env) : Except JsError (List Project) :=
  match env.projectsResp with
  | .networkError => .error .network
  | .response ok st body =>
    if ok then
      match body with
      | .error _ => .error .malformedBody
      | .ok v => .ok (v.getD [])
    else
      .error (.thrown ("Failed to fetch projects: " ++ st))

def getRepositories (env : Env) (projectId : String) :
    Except JsError (List Repo) :=
  fetchValue (env.reposResp projectId)

/-- `getCommits` receives `userEmail` but does not use it (filtering happens
locally afterwards); the request depends on the window via
`searchCriteria.fromDate`. -/
def getCommits (env : Env) (projectId repoId : String)
    (_userEmail : Option String) (daysBack : Nat) :
    Except JsError (List Commit) :=
  fetchValue (env.commitsResp projectId repoId daysBack)

/-- `getPullRequests` receives `daysBack` but the request URL carries no
date parameter (`searchCriteria.status=all&$top=1000` only). -/
def getPullRequests (env : Env) (projectId repoId : String)
    (_daysBack : Nat) : Except JsError (List PullReq) :=
  fetchValue (env.prsResp projectId repoId)

def getWorkItems (env : Env) (projectId : String) (userEmail : String)
    (daysBack : Nat) : Except JsError (List WorkItem) :=
  fetchValue (env.workItemsResp projectId userEmail daysBack)

/-! ## User filter and grouping -/

/-- `filterCommitsByUser(commits, userEmail)`: pass-through when the email
is falsy; otherwise keep commits whose `author.email` is truthy and whose
lower-cased email equals the lower-cased identity. -/
def filterCommitsByUser (commits : List Commit) (userEmail : Option String) :
    List Commit :=
  if ¬ truthyEmail userEmail then commits
  else
    commits.filter (fun c =>
      match c.author with
      | none => false
      | some a =>
        match a.email with
        | none => false
        | some e => e ≠ "" && jsToLower e == jsToLower (userEmail.getD ""))

/-- Increment the counter stored at a key (JavaScript
`userCounts[email] = (userCounts[email] || 0) + 1`). -/
def bumpKey (l : List (String × Nat)) (k : String) : List (String × Nat) :=
  match l.lookup k with
  | some n => setKey l k (n + 1)
  | none => l ++ [(k, 1)]

def groupCommitsByUser (commits : List Commit) : List (String × Nat) :=
  commits.foldl
    (fun acc c => bumpKey acc (((c.author.bind Author.email).getD "unknown")))
    []

def groupPRsByUser (prs : List PullReq) : List (String × Nat) :=
  prs.foldl
    (fun acc pr =>
      bumpKey acc (((pr.createdBy.bind Creator.uniqueName).getD "unknown")))
    []

/-! ## Synthetic distribution generators

Each loop iteration pushes
`Math.floor(Math.random() * A) + Math.floor(Math.random() * Math.random() * B)`,
consuming three draws from the supply in order. -/

def mockStatsLoop (A B : ℚ) (supply : ℕ → ℚ) : ℕ → ℕ → List ℤ
  | _, 0 => []
  | k, n + 1 =>
    (⌊supply k * A⌋ + ⌊supply (k + 1) * supply (k + 2) * B⌋)
      :: mockStatsLoop A B supply (k + 3) n

/-- 50 draws with (A, B) = (20, 50), starting at supply index `k`. -/
def generateMockCommitStats (supply : ℕ → ℚ) (k : ℕ) : List ℤ :=
  mockStatsLoop 20 50 supply k 50

/-- 50 draws with (A, B) = (10, 25), starting at supply index `k`. -/
def generateMockPRStats (supply : ℕ → ℚ) (k : ℕ) : List ℤ :=
  mockStatsLoop 10 25 supply k 50

/-- 50 draws with (A, B) = (15, 30), starting at supply index `k`. -/
def generateMockWorkItemStats (supply : ℕ → ℚ) (k : ℕ) : List ℤ :=
  mockStatsLoop 15 30 supply k 50

/-! ## Percentile engine -/

/-- `getPercentile(values, userValue)`: 0 on an empty list or a zero user
value; otherwise sort ascending, count by walking the sorted list until the
first element not below `userValue` (the `break` loop, i.e. `takeWhile`),
and `Math.round` the percentage. -/
def getPercentile (values : List ℤ) (userValue : ℤ) : ℤ :=
  if values.length = 0 ∨ userValue = 0 then 0
  else
    let sorted := values.insertionSort (· ≤ ·)
    let count := (sorted.takeWhile (fun v => v < userValue)).length
    jsRound ((count : ℚ) / (sorted.length : ℚ) * 100)

/-- The percentile the caller observes: `calculatePercentiles` removes the
zero entries from the distribution before handing it to `getPercentile`. -/
def percentile (distribution : List ℤ) (userValue : ℤ) : ℤ :=
  getPercentile (distribution.filter (fun v => 0 < v)) userValue

structure Percentiles where
  commits : ℤ
  prs : ℤ
  workItems : ℤ
deriving DecidableEq, Repr

/-! ## Per-project analysis (`analyzeProject`) -/

structure RepoStat where
  commits : Nat
  prs : Nat
  projectId : String
  repoId : String
deriving DecidableEq, Repr

structure ProjectMetrics where
  commits : Nat
  prs : Nat
  workItems : Nat
  repoStats : List (String × RepoStat)
deriving DecidableEq, Repr

def emptyProjectMetrics : ProjectMetrics :=
  { commits := 0, prs := 0, workItems := 0, repoStats := [] }

/-- The repository loop inside `analyzeProject`'s `try` block.  A thrown
fetch error surfaces as `.error` carrying the metrics accumulated so far
(the local `projectMetrics` object already mutated by earlier iterations).
Within one iteration both fetches happen before any accumulation. -/
def repoLoop (env : Env) (p : Project) (daysBack : Nat)
    (userEmail : Option String) :
    List Repo → ProjectMetrics → Except ProjectMetrics ProjectMetrics
  | [], m => .ok m
  | repo :: rest, m =>
    match getCommits env p.id repo.id userEmail daysBack with
    | .error _ => .error m
    | .ok commits =>
      match getPullRequests env p.id repo.id daysBack with
      | .error _ => .error m
      | .ok prs =>
        let commitCount := (filterCommitsByUser commits userEmail).length
        let prCount := prs.length
        let repoKey := p.name ++ "/" ++ repo.name
        repoLoop env p daysBack userEmail rest
          { commits := m.commits + commitCount
            prs := m.prs + prCount
            workItems := m.workItems
            repoStats := setKey m.repoStats repoKey
              { commits := commitCount, prs := prCount
                projectId := p.id, repoId := repo.id } }

/-- `analyzeProject`'s `try` block: `.error` carries the partially built
metrics that the `catch` will return. -/
def analyzeProjectAux (env : Env) (p : Project) (daysBack : Nat)
    (userEmail : Option String) : Except ProjectMetrics ProjectMetrics :=
  match getRepositories env p.id with
  | .error _ => .error emptyProjectMetrics
  | .ok repos =>
    match repoLoop env p daysBack userEmail repos emptyProjectMetrics with
    | .error m => .error m
    | .ok m =>
      if truthyEmail userEmail then
        match getWorkItems env p.id (userEmail.getD "") daysBack with
        | .error _ => .error m
        | .ok wis => .ok { m with workItems := wis.length }
      else
        .ok m

/-- `analyzeProject`: the `catch` logs a warning and returns the local
`projectMetrics` object as mutated so far, so the function is total. -/
def analyzeProject (env : Env) (p : Project) (daysBack : Nat)
    (userEmail : Option String) : ProjectMetrics :=
  match analyzeProjectAux env p daysBack userEmail with
  | .ok m => m
  | .error m => m

/-! ## Distribution sampler (`getProjectOrgStats`) -/

structure ProjOrgStats where
  commits : List ℤ
  prs : List ℤ
  workItems : List ℤ
deriving DecidableEq, Repr

/-- The sampling loop over the first repositories: per repository, fetch
all commits (no author filter) and all pull requests, group each by author,
and push the per-author counts. -/
def sampleLoop (env : Env) (p : Project) (daysBack : Nat) :
    List Repo → List ℤ × List ℤ → Except Unit (List ℤ × List ℤ)
  | [], acc => .ok acc
  | repo :: rest, acc =>
    match getCommits env p.id repo.id none daysBack with
    | .error _ => .error ()
    | .ok commits =>
      let commitCounts :=
        (groupCommitsByUser commits).map (fun e => (e.2 : ℤ))
      match getPullRequests env p.id repo.id daysBack with
      | .error _ => .error ()
      | .ok prs =>
        let prCounts := (groupPRsByUser prs).map (fun e => (e.2 : ℤ))
        sampleLoop env p daysBack rest
          (acc.1 ++ commitCounts, acc.2 ++ prCounts)

/-- `getProjectOrgStats`'s `try` block up to and excluding the mock
work-item generation (the loop over `repos.slice(0, 5)`). -/
def sampleAttempt (env : Env) (p : Project) (daysBack : Nat) :
    Except Unit (List ℤ × List ℤ) :=
  match getRepositories env p.id with
  | .error _ => .error ()
  | .ok repos => sampleLoop env p daysBack (repos.take 5) ([], [])

/-- `getProjectOrgStats`: on success the work-item distribution is always
synthesized (150 draws); the `catch` reassigns all three arrays to fresh
mock distributions (450 draws), discarding any partial live data.  Returns
the stats together with the next unconsumed supply index. -/
def getProjectOrgStats (env : Env) (p : Project) (daysBack : Nat)
    (supply : ℕ → ℚ) (k : ℕ) : ProjOrgStats × ℕ :=
  match sampleAttempt env p daysBack with
  | .ok (cs, ps) =>
    ({ commits := cs, prs := ps
       workItems := generateMockWorkItemStats supply k }, k + 150)
  | .error _ =>
    ({ commits := generateMockCommitStats supply k
       prs := generateMockPRStats supply (k + 150)
       workItems := generateMockWorkItemStats supply (k + 300) }, k + 450)

/-! ## Top-level aggregation (`fetchAllMetrics`) -/

structure Metrics where
  totalCommits : Nat
  totalPRs : Nat
  totalWorkItems : Nat
  activeRepos : Nat
  repoStats : List (String × RepoStat)
  projects : List (String × ProjectMetrics)
  orgAllCommits : List ℤ
  orgAllPRs : List ℤ
  orgAllWorkItems : List ℤ
  percentiles : Percentiles
deriving DecidableEq, Repr

def emptyMetrics : Metrics :=
  { totalCommits := 0, totalPRs := 0, totalWorkItems := 0, activeRepos := 0
    repoStats := [], projects := []
    orgAllCommits := [], orgAllPRs := [], orgAllWorkItems := []
    percentiles := { commits := 0, prs := 0, workItems := 0 } }

/-- Whether a per-repository entry counts as active
(`commits > 0 || prs > 0`). -/
def repoActive (s : RepoStat) : Bool :=
  0 < s.commits || 0 < s.prs

/-- The merge of one project's `repoStats` into the accumulated metrics:
for each entry, in insertion order, if it is active then increment
`activeRepos` and copy the entry into the global map. -/
def mergeRepoStats (acc : Nat × List (String × RepoStat))
    (entries : List (String × RepoStat)) : Nat × List (String × RepoStat) :=
  entries.foldl
    (fun acc e =>
      if repoActive e.2 then (acc.1 + 1, setKey acc.2 e.1 e.2) else acc)
    acc

/-- The body of the `for (const project of projects)` loop in
`fetchAllMetrics`, threading the accumulated metrics and the mock-draw
supply index. -/
def projectsLoop (env : Env) (daysBack : Nat) (userEmail : Option String)
    (supply : ℕ → ℚ) : List Project → Metrics → ℕ → Metrics × ℕ
  | [], m, k => (m, k)
  | p :: rest, m, k =>
    let pm := analyzeProject env p daysBack userEmail
    let orgPS := (getProjectOrgStats env p daysBack supply k).1
    let merged := mergeRepoStats (m.activeRepos, m.repoStats) pm.repoStats
    projectsLoop env daysBack userEmail supply rest
      { totalCommits := m.totalCommits + pm.commits
        totalPRs := m.totalPRs + pm.prs
        totalWorkItems := m.totalWorkItems + pm.workItems
        activeRepos := merged.1
        repoStats := merged.2
        projects := m.projects ++ [(p.name, pm)]
        orgAllCommits := m.orgAllCommits ++ orgPS.commits
        orgAllPRs := m.orgAllPRs ++ orgPS.prs
        orgAllWorkItems := m.orgAllWorkItems ++ orgPS.workItems
        percentiles := m.percentiles }
      (getProjectOrgStats env p daysBack supply k).2

/-- `calculatePercentiles`: filter the zero entries out of each org-wide
distribution and rank the user's totals against it.  The `userEmail`
parameter is passed in the source but unused. -/
def calculatePercentiles (m : Metrics) (_userEmail : Option String) :
    Percentiles :=
  { commits := getPercentile (m.orgAllCommits.filter (fun v => 0 < v))
      (m.totalCommits : ℤ)
    prs := getPercentile (m.orgAllPRs.filter (fun v => 0 < v))
      (m.totalPRs : ℤ)
    workItems := getPercentile (m.orgAllWorkItems.filter (fun v => 0 < v))
      (m.totalWorkItems : ℤ) }

/-- `fetchAllMetrics`: `getProjects` is awaited outside any `try`, so its
failure propagates; every later step is total. -/
def fetchAllMetrics (env : Env) (daysBack : Nat) (userEmail : Option String)
    (supply : ℕ → ℚ) : Except JsError Metrics :=
  match getProjects env with
  | .error e => .error e
  | .ok projects =>
    let (m, _) := projectsLoop env daysBack userEmail supply projects
      emptyMetrics 0
    .ok { m with percentiles := calculatePercentiles m userEmail }

/-! ## Concrete fixtures (environments used by witnesses and
counterexamples) -/

/-- A successful response with parsed body `{value: l}`. -/
def okv {α : Type} (l : List α) : FetchOutcome (Option (List α)) :=
  .response true "OK" (.ok (some l))

def projFixture : Project := ⟨"pid", "Proj"⟩

def repoA : Repo := ⟨"r1", "A"⟩

def repoB : Repo := ⟨"r2", "B"⟩

def commitByUser : Commit := ⟨some ⟨some "u@x.com"⟩⟩

def commitByOther : Commit := ⟨some ⟨some "o@y.com"⟩⟩

def prByUser : PullReq := ⟨some ⟨some "u@x.com"⟩⟩

/-- One project with two repositories; the first repository fully succeeds
with one matching commit, the commit fetch of the second rejects. -/
def envPartialFailure : Env :=
  { projectsResp := okv [projFixture]
    reposResp := fun _ => okv [repoA, repoB]
    commitsResp := fun _ rid _ =>
      if rid = "r1" then okv [commitByUser] else .networkError
    prsResp := fun _ _ => okv []
    workItemsResp := fun _ _ _ => okv [] }

/-- Commit fetches reject at transport level; pull-request fetches resolve
2xx but with a malformed body. -/
def envRaising : Env :=
  { projectsResp := okv []
    reposResp := fun _ => okv []
    commitsResp := fun _ _ _ => .networkError
    prsResp := fun _ _ => .response true "OK" (.error ())
    workItemsResp := fun _ _ _ => okv [] }

/-- Every sub-fetch answers with a non-2xx status (and a body that would
parse, showing the body is never consulted). -/
def envNon2xx : Env :=
  { projectsResp := .response false "Not Found" (.ok (some []))
    reposResp := fun _ => .response false "Not Found" (.ok (some [repoA]))
    commitsResp := fun _ _ _ =>
      .response false "Not Found" (.ok (some [commitByUser]))
    prsResp := fun _ _ => .response false "Not Found" (.ok (some [prByUser]))
    workItemsResp := fun _ _ _ =>
      .response false "Not Found" (.ok (some [⟨7⟩])) }

/-- The sampler's commit fetch rejects, forcing the synthetic fallback. -/
def envSamplerFail : Env :=
  { projectsResp := okv [projFixture]
    reposResp := fun _ => okv [repoA]
    commitsResp := fun _ _ _ => .networkError
    prsResp := fun _ _ => okv []
    workItemsResp := fun _ _ _ => okv [] }

/-- The end-to-end scenario of the specification: one project, two
repositories; repo A has 3 commits by the user and 2 by others plus one
pull request, repo B is inactive. -/
def envScenario : Env :=
  { projectsResp := okv [projFixture]
    reposResp := fun _ => okv [repoA, repoB]
    commitsResp := fun _ rid _ =>
      if rid = "r1" then
        okv [commitByUser, commitByUser, commitByUser, commitByOther,
          commitByOther]
      else okv []
    prsResp := fun _ rid => if rid = "r1" then okv [prByUser] else okv []
    workItemsResp := fun _ _ _ => okv [] }

/-- The top-level project-list fetch answers 401. -/
def envProjectsDown : Env :=
  { projectsResp := .response false "Unauthorized" (.ok (some []))
    reposResp := fun _ => okv []
    commitsResp := fun _ _ _ => okv []
    prsResp := fun _ _ => okv []
    workItemsResp := fun _ _ _ => okv [] }

/-- The commit fetch rejects for a 1-day window and succeeds for a 2-day
window, while the pull-request data is fixed. -/
def envWindowSensitive : Env :=
  { projectsResp := okv [projFixture]
    reposResp := fun _ => okv [repoA]
    commitsResp := fun _ _ d => if d = 1 then .networkError else okv []
    prsResp := fun _ _ => okv [prByUser]
    workItemsResp := fun _ _ _ => okv [] }

/-! ## Helper lemmas: the percentile engine -/

lemma takeWhile_lt_length_of_sorted (u : ℤ) :
    ∀ l : List ℤ, l.Sorted (· ≤ ·) →
      (l.takeWhile (fun v => decide (v < u))).length =
        l.countP (fun v => decide (v < u))
  | [], _ => rfl
  | a :: t, h => by
    rcases List.sorted_cons.mp h with ⟨ha, ht⟩
    by_cases hau : a < u
    · rw [List.takeWhile_cons_of_pos (by simpa using hau),
        List.countP_cons_of_pos _ _ (by simpa using hau)]
      simp [takeWhile_lt_length_of_sorted u t ht]
    · rw [List.takeWhile_cons_of_neg (by simpa using hau),
        List.countP_cons_of_neg _ _ (by simpa using hau)]
      simp only [List.length_nil]
      symm
      rw [List.countP_eq_zero]
      intro b hb
      simp only [decide_eq_true_eq]
      intro hbu
      exact hau (lt_of_le_of_lt (ha b hb) hbu)

/-- `getPercentile` in closed form: the sort-and-break loop counts exactly
the values strictly below the user value. -/
lemma getPercentile_eq (values : List ℤ) (u : ℤ) :
    getPercentile values u =
      if values.length = 0 ∨ u = 0 then 0
      else jsRound ((values.countP (fun v => decide (v < u)) : ℚ) /
        (values.length : ℚ) * 100) := by
  unfold getPercentile
  by_cases h : values.length = 0 ∨ u = 0
  · rcases h with h | h
    · simp [List.length_eq_zero.mp h]
    · simp [h]
  · simp only [h, if_false]
    have hperm := List.perm_insertionSort (· ≤ ·) values
    rw [takeWhile_lt_length_of_sorted u _
        (List.sorted_insertionSort (· ≤ ·) values),
      hperm.countP_eq, hperm.length_eq]

lemma getPercentile_nonneg (values : List ℤ) (u : ℤ) :
    0 ≤ getPercentile values u := by
  rw [getPercentile_eq]
  split
  · exact le_refl 0
  · unfold jsRound
    have hq : (0 : ℚ) ≤
        (values.countP (fun v => decide (v < u)) : ℚ) /
          (values.length : ℚ) * 100 := by positivity
    exact Int.floor_nonneg.mpr (by linarith)

lemma getPercentile_le_100 (values : List ℤ) (u : ℤ) :
    getPercentile values u ≤ 100 := by
  rw [getPercentile_eq]
  split
  · norm_num
  · unfold jsRound
    rename_i h
    have hn : values.length ≠ 0 := fun hh => h (Or.inl hh)
    have hl : (0 : ℚ) < (values.length : ℚ) := by
      exact_mod_cast Nat.pos_of_ne_zero hn
    have hc : (values.countP (fun v => decide (v < u)) : ℚ) ≤
        (values.length : ℚ) := by
      exact_mod_cast List.countP_le_length _
    have hq : (values.countP (fun v => decide (v < u)) : ℚ) /
        (values.length : ℚ) * 100 ≤ 100 := by
      rw [div_mul_eq_mul_div, div_le_iff₀ hl]
      nlinarith
    calc ⌊(values.countP (fun v => decide (v < u)) : ℚ) /
          (values.length : ℚ) * 100 + 1/2⌋
        ≤ ⌊(100 : ℚ) + 1/2⌋ := Int.floor_le_floor (by linarith)
      _ = 100 := by norm_num

/-- **C2.** `percentile(distribution, userValue)` (zero entries removed by
`calculatePercentiles` before `getPercentile` runs) is an integer in
[0,100]; it is 0 when the zero-free distribution is empty or the user value
is 0, and otherwise the count of remaining values strictly below the user
value, divided by the number of remaining values, times 100, rounded to the
nearest integer with ties away from zero.  In particular it is 50 on the
distribution `[1..10]` with user value 6. -/
theorem percentile_contract_C2 :
    (∀ (d : List ℤ) (u : ℤ),
      (0 ≤ percentile d u ∧ percentile d u ≤ 100) ∧
      percentile d u =
        (if d.filter (fun v => 0 < v) = [] ∨ u = 0 then 0
         else roundHalfAwayFromZero
           (((d.filter (fun v => 0 < v)).countP (fun v => decide (v < u)) : ℚ) /
             ((d.filter (fun v => 0 < v)).length : ℚ) * 100))) ∧
    percentile [1, 2, 3, 4, 5, 6, 7, 8, 9, 10] 6 = 50 := by
  constructor
  · intro d u
    refine ⟨⟨getPercentile_nonneg _ _, getPercentile_le_100 _ _⟩, ?_⟩
    unfold percentile
    rw [getPercentile_eq]
    have hiff : (d.filter (fun v => 0 < v)).length = 0 ∨ u = 0 ↔
        d.filter (fun v => 0 < v) = [] ∨ u = 0 := by
      rw [List.length_eq_zero]
    rw [if_congr hiff rfl rfl]
    split
    · rfl
    · unfold roundHalfAwayFromZero jsRound
      rw [if_pos (by positivity)]
  · unfold percentile
    rw [getPercentile_eq]
    norm_num [jsRound]

/-- **C9.** For a fixed distribution, the computed percentile is
monotonically non-decreasing in the user value. -/
theorem percentile_monotone_C9 (d : List ℤ) (u1 u2 : ℤ) (h : u1 ≤ u2) :
    percentile d u1 ≤ percentile d u2 := by
  unfold percentile
  by_cases h1 : u1 = 0
  · rw [show getPercentile (d.filter (fun v => 0 < v)) u1 = 0 from by
      rw [getPercentile_eq, if_pos (Or.inr h1)]]
    exact getPercentile_nonneg _ _
  by_cases h2 : u2 = 0
  · rw [getPercentile_eq, getPercentile_eq, if_pos (Or.inr h2)]
    split
    · exact le_refl 0
    · have hc : (d.filter (fun v => 0 < v)).countP
          (fun v => decide (v < u1)) = 0 := by
        rw [List.countP_eq_zero]
        intro b hb
        have hbpos : 0 < b := by simpa using (List.mem_filter.mp hb).2
        simp only [decide_eq_true_eq]
        omega
      rw [hc]
      simp only [jsRound, Nat.cast_zero, zero_div, zero_mul, zero_add]
      norm_num
  · rw [getPercentile_eq, getPercentile_eq]
    by_cases hn : (d.filter (fun v => 0 < v)).length = 0
    · simp [hn]
    · rw [if_neg (by tauto), if_neg (by tauto)]
      unfold jsRound
      apply Int.floor_le_floor
      have hcle : (d.filter (fun v => 0 < v)).countP
            (fun v => decide (v < u1)) ≤
          (d.filter (fun v => 0 < v)).countP (fun v => decide (v < u2)) := by
        apply List.countP_mono_left
        intro b _ hp
        simp only [decide_eq_true_eq] at hp ⊢
        omega
      have hl : (0 : ℚ) ≤ ((d.filter (fun v => 0 < v)).length : ℚ) := by
        positivity
      gcongr

/-- Witness for C9 at a concrete distribution and pair of user values. -/
theorem percentile_monotone_C9_witness :
    (3 : ℤ) ≤ 7 ∧
      percentile [1, 2, 3, 4, 5, 6, 7, 8, 9, 10] 3 ≤
        percentile [1, 2, 3, 4, 5, 6, 7, 8, 9, 10] 7 :=
  ⟨by decide, percentile_monotone_C9 [1, 2, 3, 4, 5, 6, 7, 8, 9, 10] 3 7
    (by decide)⟩

/-! ## Helper lemmas: the synthetic generators -/

lemma mockStatsLoop_eq (A B : ℚ) (supply : ℕ → ℚ) :
    ∀ (n k : ℕ), mockStatsLoop A B supply k n =
      (List.range n).map (fun i =>
        ⌊supply (k + 3 * i) * A⌋ +
          ⌊supply (k + 3 * i + 1) * supply (k + 3 * i + 2) * B⌋)
  | 0, _ => rfl
  | n + 1, k => by
    rw [List.range_succ_eq_map, mockStatsLoop]
    simp only [List.map_cons, List.map_map]
    congr 1
    · rw [mockStatsLoop_eq A B supply n (k + 3)]
      apply List.map_congr_left
      intro i _
      simp only [Function.comp_apply, Nat.succ_eq_add_one]
      have h0 : k + 3 + 3 * i = k + 3 * (i + 1) := by omega
      rw [h0]

/-- **C8.** Each synthetic generator produces exactly 50 values; with the
draw supply consumed three draws per value in call order, the `i`-th value
is `⌊U1 * A⌋ + ⌊U2 * U3 * B⌋` with (A, B) = (20, 50) for commits,
(10, 25) for pull requests and (15, 30) for work items. -/
theorem mock_generators_C8 (supply : ℕ → ℚ) (k : ℕ) :
    generateMockCommitStats supply k =
      (List.range 50).map (fun i =>
        ⌊supply (k + 3 * i) * 20⌋ +
          ⌊supply (k + 3 * i + 1) * supply (k + 3 * i + 2) * 50⌋) ∧
    generateMockPRStats supply k =
      (List.range 50).map (fun i =>
        ⌊supply (k + 3 * i) * 10⌋ +
          ⌊supply (k + 3 * i + 1) * supply (k + 3 * i + 2) * 25⌋) ∧
    generateMockWorkItemStats supply k =
      (List.range 50).map (fun i =>
        ⌊supply (k + 3 * i) * 15⌋ +
          ⌊supply (k + 3 * i + 1) * supply (k + 3 * i + 2) * 30⌋) ∧
    (generateMockCommitStats supply k).length = 50 ∧
    (generateMockPRStats supply k).length = 50 ∧
    (generateMockWorkItemStats supply k).length = 50 := by
  refine ⟨mockStatsLoop_eq 20 50 supply 50 k, mockStatsLoop_eq 10 25 supply 50 k,
    mockStatsLoop_eq 15 30 supply 50 k, ?_, ?_, ?_⟩ <;>
    simp [generateMockCommitStats, generateMockPRStats,
      generateMockWorkItemStats, mockStatsLoop_eq]

/-! ## Helper lemmas: the user filter -/

lemma jsToLower_eq_empty_iff (s : String) : jsToLower s = "" ↔ s = "" := by
  simp [jsToLower, String.ext_iff]

/-- **C5.** With a truthy identity, `filterCommitsByUser` returns exactly
the subsequence of commits whose author email, lower-cased, equals the
lower-cased identity (commits without an author email never appear); with
an absent or empty identity it returns the input unchanged; in every case
the result is a subsequence of the input. -/
theorem filterCommitsByUser_contract_C5 (commits : List Commit)
    (userEmail : Option String) :
    filterCommitsByUser commits userEmail =
      (if truthyEmail userEmail then
        commits.filter (fun c =>
          (c.author.bind Author.email).map jsToLower ==
            some (jsToLower (userEmail.getD "")))
      else commits) ∧
    (filterCommitsByUser commits userEmail).Sublist commits ∧
    (∀ c ∈ filterCommitsByUser commits userEmail,
      truthyEmail userEmail = true → (c.author.bind Author.email).isSome) := by
  have hmain : filterCommitsByUser commits userEmail =
      (if truthyEmail userEmail then
        commits.filter (fun c =>
          (c.author.bind Author.email).map jsToLower ==
            some (jsToLower (userEmail.getD "")))
      else commits) := by
    unfold filterCommitsByUser
    by_cases ht : truthyEmail userEmail
    · rw [if_neg (by simpa using ht), if_pos ht]
      apply List.filter_congr
      intro c _
      obtain ⟨a⟩ := c
      cases a with
      | none => rfl
      | some au =>
        obtain ⟨em⟩ := au
        cases em with
        | none => rfl
        | some e =>
          by_cases he : e = ""
          · subst he
            have hid : userEmail.getD "" ≠ "" := by
              cases userEmail with
              | none => simp [truthyEmail] at ht
              | some v => simpa [truthyEmail] using ht
            have hne : jsToLower "" ≠ jsToLower (userEmail.getD "") := by
              rw [show jsToLower "" = "" from rfl]
              intro hh
              exact hid ((jsToLower_eq_empty_iff _).mp hh.symm)
            simp [hne]
          · simp [he]
    · rw [if_pos (by simpa using ht), if_neg ht]
  refine ⟨hmain, ?_, ?_⟩
  · rw [hmain]
    by_cases ht : truthyEmail userEmail
    · rw [if_pos ht]
      exact List.filter_sublist commits
    · rw [if_neg ht]
  · intro c hc ht
    rw [hmain, if_pos ht] at hc
    have := (List.mem_filter.mp hc).2
    cases hab : c.author.bind Author.email with
    | none => rw [hab] at this; simp at this
    | some e => simp

/-! ## Helper lemmas: the aggregation loop -/

lemma projectsLoop_totals (env : Env) (d : ℕ) (u : Option String)
    (supply : ℕ → ℚ) : ∀ (ps : List Project) (m : Metrics) (k : ℕ),
    (projectsLoop env d u supply ps m k).1.totalCommits =
      m.totalCommits +
        (ps.map (fun p => (analyzeProject env p d u).commits)).sum ∧
    (projectsLoop env d u supply ps m k).1.totalPRs =
      m.totalPRs + (ps.map (fun p => (analyzeProject env p d u).prs)).sum ∧
    (projectsLoop env d u supply ps m k).1.totalWorkItems =
      m.totalWorkItems +
        (ps.map (fun p => (analyzeProject env p d u).workItems)).sum
  | [], m, k => by simp [projectsLoop]
  | p :: rest, m, k => by
    obtain ⟨h1, h2, h3⟩ := projectsLoop_totals env d u supply rest
      { totalCommits := m.totalCommits + (analyzeProject env p d u).commits
        totalPRs := m.totalPRs + (analyzeProject env p d u).prs
        totalWorkItems :=
          m.totalWorkItems + (analyzeProject env p d u).workItems
        activeRepos := (mergeRepoStats (m.activeRepos, m.repoStats)
          (analyzeProject env p d u).repoStats).1
        repoStats := (mergeRepoStats (m.activeRepos, m.repoStats)
          (analyzeProject env p d u).repoStats).2
        projects := m.projects ++ [(p.name, analyzeProject env p d u)]
        orgAllCommits := m.orgAllCommits ++
          (getProjectOrgStats env p d supply k).1.commits
        orgAllPRs := m.orgAllPRs ++
          (getProjectOrgStats env p d supply k).1.prs
        orgAllWorkItems := m.orgAllWorkItems ++
          (getProjectOrgStats env p d supply k).1.workItems
        percentiles := m.percentiles }
      (getProjectOrgStats env p d supply k).2
    refine ⟨?_, ?_, ?_⟩ <;>
      simp only [projectsLoop, h1, h2, h3, List.map_cons, List.sum_cons] <;>
      omega

/-- **C1, counterexample.** In `envPartialFailure` the analysis of the
project hits an exception (the second repository's commit fetch rejects)
and the exception is caught at the project level, yet the project's
contribution is not zero: the commit counted from the first repository
survives in the returned metrics. -/
theorem project_failure_zero_C1_counterexample :
    (analyzeProjectAux envPartialFailure projFixture 30
      (some "u@x.com")).isOk = false ∧
    (analyzeProject envPartialFailure projFixture 30
      (some "u@x.com")).commits = 1 ∧
    analyzeProject envPartialFailure projFixture 30 (some "u@x.com") ≠
      emptyProjectMetrics := by decide

/-- **C1, amended.** A project-level failure truncates that project's
contribution at the failure point: the metrics accumulated inside the
project before the failing fetch are kept (zero only when the failure
precedes any repository's completion, e.g. when the repository-list fetch
throws).  Already-accumulated totals from other projects are unaffected —
each project contributes exactly its own `analyzeProject` result to the
organization totals — and the run continues (the aggregation returns a
snapshot whenever the project-list fetch itself succeeded). -/
theorem project_failure_containment_C1 (env : Env) (d : ℕ)
    (u : Option String) (supply : ℕ → ℚ) (ps : List Project)
    (hps : getProjects env = .ok ps) :
    (∃ m, fetchAllMetrics env d u supply = .ok m ∧
      m.totalCommits =
        (ps.map (fun p => (analyzeProject env p d u).commits)).sum ∧
      m.totalPRs = (ps.map (fun p => (analyzeProject env p d u).prs)).sum ∧
      m.totalWorkItems =
        (ps.map (fun p => (analyzeProject env p d u).workItems)).sum) ∧
    (∀ p : Project, (getRepositories env p.id).isOk = false →
      analyzeProject env p d u = emptyProjectMetrics) := by
  constructor
  · refine ⟨{ (projectsLoop env d u supply ps emptyMetrics 0).1 with
      percentiles := calculatePercentiles
        (projectsLoop env d u supply ps emptyMetrics 0).1 u }, ?_, ?_, ?_, ?_⟩
    · unfold fetchAllMetrics
      rw [hps]
    · simpa [emptyMetrics] using
        (projectsLoop_totals env d u supply ps emptyMetrics 0).1
    · simpa [emptyMetrics] using
        (projectsLoop_totals env d u supply ps emptyMetrics 0).2.1
    · simpa [emptyMetrics] using
        (projectsLoop_totals env d u supply ps emptyMetrics 0).2.2
  · intro p hrep
    unfold analyzeProject analyzeProjectAux
    cases hr : getRepositories env p.id with
    | error e => rfl
    | ok repos => rw [hr] at hrep; simp [Except.isOk, Except.toBool] at hrep

/-- Witness for C1 (amended) on the two-repository partial-failure
environment. -/
theorem project_failure_containment_C1_witness :
    getProjects envPartialFailure = .ok [projFixture] ∧
    ((∃ m, fetchAllMetrics envPartialFailure 30 (some "u@x.com")
        (fun _ => 0) = .ok m ∧
      m.totalCommits = ([projFixture].map (fun p =>
        (analyzeProject envPartialFailure p 30 (some "u@x.com")).commits)).sum ∧
      m.totalPRs = ([projFixture].map (fun p =>
        (analyzeProject envPartialFailure p 30 (some "u@x.com")).prs)).sum ∧
      m.totalWorkItems = ([projFixture].map (fun p =>
        (analyzeProject envPartialFailure p 30
          (some "u@x.com")).workItems)).sum) ∧
    (∀ p : Project, (getRepositories envPartialFailure p.id).isOk = false →
      analyzeProject envPartialFailure p 30 (some "u@x.com") =
        emptyProjectMetrics)) :=
  ⟨by decide,
    project_failure_containment_C1 envPartialFailure 30 (some "u@x.com")
      (fun _ => 0) [projFixture] (by decide)⟩

/-- **C3, counterexample.** A rejected commit fetch and a 2xx pull-request
response with a malformed body both make the fetch helper raise instead of
returning an empty sequence. -/
theorem fetcher_never_raises_C3_counterexample :
    getCommits envRaising "p" "r" none 30 = .error .network ∧
    getPullRequests envRaising "p" "r" 30 = .error .malformedBody := by
  decide

/-- **C3, amended.** A sub-fetch answering with a non-2xx status yields an
empty sequence (its body is never consulted); but a network error or a
malformed 2xx body raises a `JsError` out of the fetch helper (to be
recovered only at the project level). -/
theorem fetcher_empty_on_non2xx_C3 (env : Env) (pid rid uid : String)
    (u : Option String) (d : ℕ) :
    (∀ st body, env.reposResp pid = .response false st body →
      getRepositories env pid = .ok []) ∧
    (∀ st body, env.commitsResp pid rid d = .response false st body →
      getCommits env pid rid u d = .ok []) ∧
    (∀ st body, env.prsResp pid rid = .response false st body →
      getPullRequests env pid rid d = .ok []) ∧
    (∀ st body, env.workItemsResp pid uid d = .response false st body →
      getWorkItems env pid uid d = .ok []) ∧
    (env.commitsResp pid rid d = .networkError →
      getCommits env pid rid u d = .error .network) ∧
    (∀ st, env.commitsResp pid rid d = .response true st (.error ()) →
      getCommits env pid rid u d = .error .malformedBody) := by
  refine ⟨?_, ?_, ?_, ?_, ?_, ?_⟩
  · intro st body h
    simp [getRepositories, fetchValue, h]
  · intro st body h
    simp [getCommits, fetchValue, h]
  · intro st body h
    simp [getPullRequests, fetchValue, h]
  · intro st body h
    simp [getWorkItems, fetchValue, h]
  · intro h
    simp [getCommits, fetchValue, h]
  · intro st h
    simp [getCommits, fetchValue, h]

/-- Witness for C3 (amended): non-2xx responses yield empty sequences even
though the bodies would have parsed; transport and parse failures raise. -/
theorem fetcher_empty_on_non2xx_C3_witness :
    getRepositories envNon2xx "pid" = .ok [] ∧
    getCommits envNon2xx "pid" "r1" none 30 = .ok [] ∧
    getPullRequests envNon2xx "pid" "r1" 30 = .ok [] ∧
    getWorkItems envNon2xx "pid" "u@x.com" 30 = .ok [] ∧
    getCommits envRaising "pid" "r1" none 30 = .error .network :=
  ⟨(fetcher_empty_on_non2xx_C3 envNon2xx "pid" "r1" "u@x.com" none 30).1
      "Not Found" (.ok (some [repoA])) rfl,
    (fetcher_empty_on_non2xx_C3 envNon2xx "pid" "r1" "u@x.com" none 30).2.1
      "Not Found" (.ok (some [commitByUser])) rfl,
    (fetcher_empty_on_non2xx_C3 envNon2xx "pid" "r1" "u@x.com" none 30).2.2.1
      "Not Found" (.ok (some [prByUser])) rfl,
    (fetcher_empty_on_non2xx_C3 envNon2xx "pid" "r1" "u@x.com" none
      30).2.2.2.1 "Not Found" (.ok (some [⟨7⟩])) rfl,
    (fetcher_empty_on_non2xx_C3 envRaising "pid" "r1" "u@x.com" none
      30).2.2.2.2.1 rfl⟩

/-- **C4.** If any fetch throws during the sampling loop, the project's
contribution to all three org-wide distributions is wholly replaced by
freshly synthesized values (three generators drawing 150 draws each at
consecutive supply offsets), discarding any partial live data. -/
theorem sampler_all_or_nothing_C4 (env : Env) (p : Project) (d : ℕ)
    (supply : ℕ → ℚ) (k : ℕ)
    (hfail : (sampleAttempt env p d).isOk = false) :
    getProjectOrgStats env p d supply k =
      ({ commits := generateMockCommitStats supply k
         prs := generateMockPRStats supply (k + 150)
         workItems := generateMockWorkItemStats supply (k + 300) },
        k + 450) := by
  unfold getProjectOrgStats
  cases h : sampleAttempt env p d with
  | error e => rfl
  | ok v => rw [h] at hfail; simp [Except.isOk, Except.toBool] at hfail

/-- Witness for C4 on the environment whose sampler commit fetch rejects. -/
theorem sampler_all_or_nothing_C4_witness :
    (sampleAttempt envSamplerFail projFixture 30).isOk = false ∧
    getProjectOrgStats envSamplerFail projFixture 30 (fun _ => 0) 0 =
      ({ commits := generateMockCommitStats (fun _ => 0) 0
         prs := generateMockPRStats (fun _ => 0) 150
         workItems := generateMockWorkItemStats (fun _ => 0) 300 }, 450) :=
  ⟨by decide,
    sampler_all_or_nothing_C4 envSamplerFail projFixture 30 (fun _ => 0) 0
      (by decide)⟩

/-- **C7.** A non-2xx answer to the top-level project-list fetch aborts the
whole run with an error carrying the remote status text, propagated to the
caller; it is the only fetch whose failure aborts the run — whenever the
project-list fetch succeeds, the run produces a snapshot regardless of
every other response. -/
theorem projects_fetch_abort_C7 (env : Env) (d : ℕ) (u : Option String)
    (supply : ℕ → ℚ) :
    (∀ st body, env.projectsResp = .response false st body →
      fetchAllMetrics env d u supply =
        .error (.thrown ("Failed to fetch projects: " ++ st))) ∧
    (∀ ps, getProjects env = .ok ps →
      ∃ m, fetchAllMetrics env d u supply = .ok m) := by
  constructor
  · intro st body h
    unfold fetchAllMetrics getProjects
    rw [h]
    simp
  · intro ps hps
    refine ⟨{ (projectsLoop env d u supply ps emptyMetrics 0).1 with
      percentiles := calculatePercentiles
        (projectsLoop env d u supply ps emptyMetrics 0).1 u }, ?_⟩
    unfold fetchAllMetrics
    rw [hps]

/-- Witness for C7: a 401 project-list answer aborts the run with the
status text, while a successful project-list fetch yields a snapshot. -/
theorem projects_fetch_abort_C7_witness :
    fetchAllMetrics envProjectsDown 30 none (fun _ => 0) =
      .error (.thrown "Failed to fetch projects: Unauthorized") ∧
    (∃ m, fetchAllMetrics envScenario 30 (some "u@x.com") (fun _ => 0) =
      .ok m) :=
  ⟨(projects_fetch_abort_C7 envProjectsDown 30 none (fun _ => 0)).1
      "Unauthorized" (.ok (some [])) rfl,
    (projects_fetch_abort_C7 envScenario 30 (some "u@x.com") (fun _ => 0)).2
      [projFixture] (by decide)⟩

/-- **C10, counterexample.** With all remote responses held fixed, changing
only the lookback window changes the resulting PR count: for a 1-day
window the commit fetch (whose request depends on the window) rejects and
aborts the repository loop before the PR fetch, so the repository's pull
request is never counted, while a 2-day window counts it. -/
theorem pr_window_independence_C10_counterexample :
    (analyzeProject envWindowSensitive projFixture 1 none).prs = 0 ∧
    (analyzeProject envWindowSensitive projFixture 2 none).prs = 1 := by
  decide

lemma repoLoop_window_congr (env : Env) (p : Project) (u : Option String)
    (d1 d2 : ℕ)
    (hc : ∀ r, env.commitsResp p.id r d1 = env.commitsResp p.id r d2) :
    ∀ (repos : List Repo) (m : ProjectMetrics),
      repoLoop env p d1 u repos m = repoLoop env p d2 u repos m
  | [], _ => rfl
  | repo :: rest, m => by
    unfold repoLoop
    rw [show getCommits env p.id repo.id u d1 =
        getCommits env p.id repo.id u d2 from by
      unfold getCommits; rw [hc repo.id]]
    rw [show getPullRequests env p.id repo.id d1 =
      getPullRequests env p.id repo.id d2 from rfl]
    cases getCommits env p.id repo.id u d2 with
    | error e => rfl
    | ok commits =>
      cases getPullRequests env p.id repo.id d2 with
      | error e => rfl
      | ok prs => exact repoLoop_window_congr env p u d1 d2 hc rest _

lemma sampleLoop_window_congr (env : Env) (p : Project) (d1 d2 : ℕ)
    (hc : ∀ r, env.commitsResp p.id r d1 = env.commitsResp p.id r d2) :
    ∀ (repos : List Repo) (acc : List ℤ × List ℤ),
      sampleLoop env p d1 repos acc = sampleLoop env p d2 repos acc
  | [], _ => rfl
  | repo :: rest, acc => by
    unfold sampleLoop
    rw [show getCommits env p.id repo.id none d1 =
        getCommits env p.id repo.id none d2 from by
      unfold getCommits; rw [hc repo.id]]
    rw [show getPullRequests env p.id repo.id d1 =
      getPullRequests env p.id repo.id d2 from rfl]
    cases getCommits env p.id repo.id none d2 with
    | error e => rfl
    | ok commits =>
      cases getPullRequests env p.id repo.id d2 with
      | error e => rfl
      | ok prs => exact sampleLoop_window_congr env p d1 d2 hc rest _

/-- **C10, amended.** The pull-request request carries no date parameter,
so the fetched pull requests are identical across lookback windows; and
whenever the commit responses are also the same for the two windows, the
project's commit totals, PR totals, per-repository stats (hence
active-repository status) and its entire distribution contribution
coincide.  Without that proviso they can differ (see the counterexample):
a window-dependent commit fetch can abort the repository loop or trigger
the sampler fallback, changing PR counts and PR distribution
contributions downstream. -/
theorem pr_window_independence_C10 (env : Env) (p : Project)
    (u : Option String) (supply : ℕ → ℚ) (k : ℕ) (d1 d2 : ℕ)
    (hc : ∀ r, env.commitsResp p.id r d1 = env.commitsResp p.id r d2) :
    (∀ rid, getPullRequests env p.id rid d1 =
      getPullRequests env p.id rid d2) ∧
    (analyzeProject env p d1 u).commits =
      (analyzeProject env p d2 u).commits ∧
    (analyzeProject env p d1 u).prs = (analyzeProject env p d2 u).prs ∧
    (analyzeProject env p d1 u).repoStats =
      (analyzeProject env p d2 u).repoStats ∧
    getProjectOrgStats env p d1 supply k =
      getProjectOrgStats env p d2 supply k := by
  have hfields : (analyzeProject env p d1 u).commits =
        (analyzeProject env p d2 u).commits ∧
      (analyzeProject env p d1 u).prs = (analyzeProject env p d2 u).prs ∧
      (analyzeProject env p d1 u).repoStats =
        (analyzeProject env p d2 u).repoStats := by
    unfold analyzeProject analyzeProjectAux
    cases getRepositories env p.id with
    | error e => exact ⟨rfl, rfl, rfl⟩
    | ok repos =>
      dsimp only
      rw [repoLoop_window_congr env p u d1 d2 hc repos emptyProjectMetrics]
      cases repoLoop env p d2 u repos emptyProjectMetrics with
      | error m => exact ⟨rfl, rfl, rfl⟩
      | ok m =>
        by_cases ht : truthyEmail u
        · simp only [ht, if_true]
          cases getWorkItems env p.id (u.getD "") d1 with
          | error e1 =>
            cases getWorkItems env p.id (u.getD "") d2 with
            | error e2 => exact ⟨rfl, rfl, rfl⟩
            | ok w2 => exact ⟨rfl, rfl, rfl⟩
          | ok w1 =>
            cases getWorkItems env p.id (u.getD "") d2 with
            | error e2 => exact ⟨rfl, rfl, rfl⟩
            | ok w2 => exact ⟨rfl, rfl, rfl⟩
        · simp only [ht, if_false]
          exact ⟨rfl, rfl, rfl⟩
  refine ⟨fun rid => rfl, hfields.1, hfields.2.1, hfields.2.2, ?_⟩
  unfold getProjectOrgStats sampleAttempt
  cases getRepositories env p.id with
  | error e => rfl
  | ok repos =>
    dsimp only
    rw [sampleLoop_window_congr env p d1 d2 hc (repos.take 5) ([], [])]

/-- Witness for C10 (amended) on the scenario environment, whose commit
responses do not depend on the window. -/
theorem pr_window_independence_C10_witness :
    (analyzeProject envScenario projFixture 30 (some "u@x.com")).prs =
      (analyzeProject envScenario projFixture 90 (some "u@x.com")).prs ∧
    getProjectOrgStats envScenario projFixture 30 (fun _ => 0) 0 =
      getProjectOrgStats envScenario projFixture 90 (fun _ => 0) 0 :=
  ⟨(pr_window_independence_C10 envScenario projFixture (some "u@x.com")
      (fun _ => 0) 0 30 90 (fun _ => rfl)).2.2.1,
    (pr_window_independence_C10 envScenario projFixture (some "u@x.com")
      (fun _ => 0) 0 30 90 (fun _ => rfl)).2.2.2.2⟩

/-! ## Helper lemmas: repository-stats merge -/

lemma setKey_of_not_mem {α : Type} (l : List (String × α)) (k : String)
    (v : α) (h : k ∉ l.map Prod.fst) : setKey l k v = l ++ [(k, v)] := by
  have hany : l.any (fun p => p.1 == k) = false := by
    rw [List.any_eq_false]
    intro p hp
    simp only [beq_iff_eq]
    intro hk
    exact h (hk ▸ List.mem_map_of_mem Prod.fst hp)
  simp [setKey, hany]

lemma mergeRepoStats_spec :
    ∀ (entries : List (String × RepoStat)) (n : ℕ)
      (l : List (String × RepoStat)),
    (∀ k ∈ entries.map Prod.fst, k ∉ l.map Prod.fst) →
    (entries.map Prod.fst).Nodup →
    mergeRepoStats (n, l) entries =
      (n + entries.countP (fun e => repoActive e.2),
        l ++ entries.filter (fun e => repoActive e.2))
  | [], n, l, _, _ => by simp [mergeRepoStats]
  | e :: rest, n, l, hdisj, hnodup => by
    have hke : e.1 ∉ l.map Prod.fst := hdisj e.1 (by simp)
    have hd2 : ∀ k ∈ rest.map Prod.fst, k ∉ (l ++ [(e.1, e.2)]).map Prod.fst := by
      intro k hk
      simp only [List.map_append, List.mem_append, List.map_cons,
        List.map_nil, List.mem_singleton]
      rintro (hkl | hke1)
      · exact hdisj k (by simp [hk]) hkl
      · rw [List.map_cons, List.nodup_cons] at hnodup
        exact hnodup.1 (hke1 ▸ hk)
    have hn2 : (rest.map Prod.fst).Nodup := by
      rw [List.map_cons, List.nodup_cons] at hnodup
      exact hnodup.2
    by_cases ha : repoActive e.2 = true
    · have step : mergeRepoStats (n, l) (e :: rest) =
          mergeRepoStats (n + 1, l ++ [(e.1, e.2)]) rest := by
        simp only [mergeRepoStats, List.foldl_cons, ha, if_true,
          setKey_of_not_mem l e.1 e.2 hke]
      rw [step, mergeRepoStats_spec rest (n + 1) (l ++ [(e.1, e.2)]) hd2 hn2,
        List.countP_cons_of_pos _ _ (by simpa using ha),
        List.filter_cons_of_pos (by simpa using ha)]
      refine Prod.ext ?_ ?_ <;> simp
      omega
    · have step : mergeRepoStats (n, l) (e :: rest) =
          mergeRepoStats (n, l) rest := by
        simp only [mergeRepoStats, List.foldl_cons, ha, Bool.false_eq_true,
          if_false]
      have hd3 : ∀ k ∈ rest.map Prod.fst, k ∉ l.map Prod.fst := by
        intro k hk
        exact hdisj k (by simp [hk])
      rw [step, mergeRepoStats_spec rest n l hd3 hn2,
        List.countP_cons_of_neg _ _ (by simpa using ha),
        List.filter_cons_of_neg (by simpa using ha)]

lemma projectsLoop_active (env : Env) (d : ℕ) (u : Option String)
    (supply : ℕ → ℚ) :
    ∀ (ps : List Project) (m : Metrics) (k : ℕ),
    ((ps.map (fun p =>
      (analyzeProject env p d u).repoStats.map Prod.fst)).flatten).Nodup →
    (∀ key ∈ (ps.map (fun p =>
      (analyzeProject env p d u).repoStats.map Prod.fst)).flatten,
      key ∉ m.repoStats.map Prod.fst) →
    m.activeRepos = m.repoStats.length →
    (∀ e ∈ m.repoStats, repoActive e.2 = true) →
    ((projectsLoop env d u supply ps m k).1.activeRepos =
        (projectsLoop env d u supply ps m k).1.repoStats.length ∧
      (∀ e ∈ (projectsLoop env d u supply ps m k).1.repoStats,
        repoActive e.2 = true) ∧
      (projectsLoop env d u supply ps m k).1.repoStats =
        m.repoStats ++ (ps.map (fun p =>
          (analyzeProject env p d u).repoStats.filter
            (fun e => repoActive e.2))).flatten)
  | [], m, k, _, _, hlen, hact => by
    simp only [projectsLoop, List.map_nil, List.flatten_nil, List.append_nil]
    exact ⟨hlen, hact, trivial⟩
  | p :: rest, m, k, hnodup, hdisj, hlen, hact => by
    have hsplit : ((p :: rest).map (fun p =>
        (analyzeProject env p d u).repoStats.map Prod.fst)).flatten =
        (analyzeProject env p d u).repoStats.map Prod.fst ++
          ((rest.map (fun p =>
            (analyzeProject env p d u).repoStats.map Prod.fst)).flatten) := by
      simp
    rw [hsplit] at hnodup hdisj
    rw [List.nodup_append] at hnodup
    obtain ⟨hn1, hn2, hdisj12⟩ := hnodup
    have hdisjm : ∀ key ∈ (analyzeProject env p d u).repoStats.map Prod.fst,
        key ∉ m.repoStats.map Prod.fst := by
      intro key hk
      exact hdisj key (List.mem_append_left _ hk)
    have hmerge := mergeRepoStats_spec (analyzeProject env p d u).repoStats
      m.activeRepos m.repoStats hdisjm hn1
    simp only [projectsLoop]
    have ih := projectsLoop_active env d u supply rest
      { totalCommits := m.totalCommits + (analyzeProject env p d u).commits
        totalPRs := m.totalPRs + (analyzeProject env p d u).prs
        totalWorkItems :=
          m.totalWorkItems + (analyzeProject env p d u).workItems
        activeRepos := (mergeRepoStats (m.activeRepos, m.repoStats)
          (analyzeProject env p d u).repoStats).1
        repoStats := (mergeRepoStats (m.activeRepos, m.repoStats)
          (analyzeProject env p d u).repoStats).2
        projects := m.projects ++ [(p.name, analyzeProject env p d u)]
        orgAllCommits := m.orgAllCommits ++
          (getProjectOrgStats env p d supply k).1.commits
        orgAllPRs := m.orgAllPRs ++
          (getProjectOrgStats env p d supply k).1.prs
        orgAllWorkItems := m.orgAllWorkItems ++
          (getProjectOrgStats env p d supply k).1.workItems
        percentiles := m.percentiles }
      (getProjectOrgStats env p d supply k).2
      hn2
      (by
        intro key hk
        simp only [hmerge, List.map_append, List.mem_append]
        rintro (hkm | hkp)
        · exact hdisj key (List.mem_append_right _ hk) hkm
        · have : key ∈ (analyzeProject env p d u).repoStats.map Prod.fst := by
            rcases List.mem_map.mp hkp with ⟨e, he, hfst⟩
            exact List.mem_map.mpr ⟨e, List.mem_of_mem_filter he, hfst⟩
          exact hdisj12 this hk)
      (by
        show (mergeRepoStats (m.activeRepos, m.repoStats)
            (analyzeProject env p d u).repoStats).1 =
          (mergeRepoStats (m.activeRepos, m.repoStats)
            (analyzeProject env p d u).repoStats).2.length
        rw [hmerge]
        simp only [List.length_append, List.countP_eq_length_filter, hlen])
      (by
        intro e he
        simp only [hmerge, List.mem_append] at he
        rcases he with he | he
        · exact hact e he
        · simpa using (List.mem_filter.mp he).2)
    refine ⟨ih.1, ih.2.1, ?_⟩
    rw [ih.2.2]
    simp only [hmerge, List.map_cons, List.flatten_cons, List.append_assoc]

/-- **C6.** In every snapshot produced under the data-model invariant that
repository keys are globally unique, the merged `repoStats` consists of
exactly the per-project entries with `commits > 0 || prs > 0` (a
repository is recorded iff it is active), and `activeRepos` equals the
number of `repoStats` entries satisfying `commits > 0 || prs > 0`. -/
theorem active_repos_count_C6 (env : Env) (d : ℕ) (u : Option String)
    (supply : ℕ → ℚ) (ps : List Project)
    (hps : getProjects env = .ok ps)
    (hkeys : ((ps.map (fun p =>
      (analyzeProject env p d u).repoStats.map Prod.fst)).flatten).Nodup) :
    ∃ m, fetchAllMetrics env d u supply = .ok m ∧
      m.repoStats = (ps.map (fun p =>
        (analyzeProject env p d u).repoStats.filter
          (fun e => repoActive e.2))).flatten ∧
      (∀ e ∈ m.repoStats, repoActive e.2 = true) ∧
      m.activeRepos = m.repoStats.countP (fun e => repoActive e.2) := by
  obtain ⟨hlen, hact, hstats⟩ :=
    projectsLoop_active env d u supply ps emptyMetrics 0 hkeys
      (by simp [emptyMetrics]) (by simp [emptyMetrics])
      (by simp [emptyMetrics])
  refine ⟨{ (projectsLoop env d u supply ps emptyMetrics 0).1 with
      percentiles := calculatePercentiles
        (projectsLoop env d u supply ps emptyMetrics 0).1 u }, ?_, ?_, ?_, ?_⟩
  · unfold fetchAllMetrics
    rw [hps]
  · simpa [emptyMetrics] using hstats
  · exact hact
  · show (projectsLoop env d u supply ps emptyMetrics 0).1.activeRepos = _
    rw [hlen, List.countP_eq_length_filter, List.filter_eq_self.mpr hact]

/-- Witness for C6 on the scenario environment (one project, repo A active
with 3 user commits and 1 PR, repo B inactive). -/
theorem active_repos_count_C6_witness :
    getProjects envScenario = .ok [projFixture] ∧
    (([projFixture].map (fun p =>
      (analyzeProject envScenario p 30 (some "u@x.com")).repoStats.map
        Prod.fst)).flatten).Nodup ∧
    (∃ m, fetchAllMetrics envScenario 30 (some "u@x.com") (fun _ => 0) =
        .ok m ∧
      m.repoStats = ([projFixture].map (fun p =>
        (analyzeProject envScenario p 30 (some "u@x.com")).repoStats.filter
          (fun e => repoActive e.2))).flatten ∧
      (∀ e ∈ m.repoStats, repoActive e.2 = true) ∧
      m.activeRepos = m.repoStats.countP (fun e => repoActive e.2)) :=
  ⟨by decide, by decide,
    active_repos_count_C6 envScenario 30 (some "u@x.com") (fun _ => 0)
      [projFixture] (by decide) (by decide)⟩

/-- Witness for C5: on a concrete commit list, the filter keeps exactly the
case-insensitive match and drops missing/empty author emails. -/
theorem filterCommitsByUser_contract_C5_witness :
    filterCommitsByUser
        [⟨some ⟨some "A@x.com"⟩⟩, ⟨none⟩, ⟨some ⟨none⟩⟩, ⟨some ⟨some ""⟩⟩]
        (some "a@X.com") =
      (if truthyEmail (some "a@X.com") then
        ([⟨some ⟨some "A@x.com"⟩⟩, ⟨none⟩, ⟨some ⟨none⟩⟩,
            ⟨some ⟨some ""⟩⟩] : List Commit).filter (fun c =>
          (c.author.bind Author.email).map jsToLower ==
            some (jsToLower ((some "a@X.com").getD "")))
      else [⟨some ⟨some "A@x.com"⟩⟩, ⟨none⟩, ⟨some ⟨none⟩⟩,
        ⟨some ⟨some ""⟩⟩]) ∧
    filterCommitsByUser
        [⟨some ⟨some "A@x.com"⟩⟩, ⟨none⟩, ⟨some ⟨none⟩⟩, ⟨some ⟨some ""⟩⟩]
        (some "a@X.com") = [⟨some ⟨some "A@x.com"⟩⟩] :=
  ⟨(filterCommitsByUser_contract_C5
      [⟨some ⟨some "A@x.com"⟩⟩, ⟨none⟩, ⟨some ⟨none⟩⟩, ⟨some ⟨some ""⟩⟩]
      (some "a@X.com")).1,
    by decide⟩
